import Mathlib

/-!
Verification development for the awilix lifetime benchmark
(src/benchmark_awilix_lifetimes.js).

The benchmark drives a timed request loop against a dependency-resolution
container under three lifetime policies, with an in-flight cap and an
optional cache-bypass path, and accumulates counters into a result record.

Modelling choices:

* The request loop, the completion continuations and the counters are
  embedded as a small-step state machine over `RunState`.  A trace is a
  list of `Event`s: `Event.iterate svc` is one execution of the `while`
  body (lines 86-128) picking the service with index `svc`, and
  `Event.complete k` is the execution of the `.then` continuation of the
  action launched for request `k` (lines 112-115).  The wall-clock stop
  condition only decides how many iterations occur, so it is abstracted
  by the length of the trace; the scheduler of the single-threaded event
  loop only decides where `complete` events are interleaved, so traces
  quantify over all interleavings.

* The container (the external awilix collaborator) is not part of the
  repository sources.  Its lifetime semantics are modelled from the spec
  (section 4.2, Lifetime-Scoped Resolver) together with the registration
  code in `generateAwilixConfig` (lines 198-239): see `peekHit` and
  `resolveEffect`.

* Wall-clock fields (`totalSeconds`, `totalSecondsResolving`) are real
  time measurements and are not modelled.
-/

namespace Benchmark

/-- Lifetime policy names used by the benchmark (`testMatrix.lifetimeType`,
line 22): PER-CALL, PER-SCOPE and PROCESS-WIDE respectively. -/
inductive LifetimeType where
  | TRANSIENT
  | SCOPED
  | SINGLETON
deriving DecidableEq, Repr

/-- One expanded test configuration (line 34):
`\x7b numberServices, maxInFlight, lifetimeType, cacheBypass, numberSeconds \x7d`. -/
structure TestCase where
  numberServices : Nat
  maxInFlight : Nat
  lifetimeType : LifetimeType
  cacheBypass : Bool
  numberSeconds : Nat
deriving DecidableEq, Repr

/-- `testMatrix.numberServices` (line 20). -/
def testMatrix_numberServices : List Nat := [50, 100, 500, 1000]

/-- `testMatrix.maxInFlight` (line 21). -/
def testMatrix_maxInFlight : List Nat := [1000]

/-- `testMatrix.lifetimeType` (line 22). -/
def testMatrix_lifetimeType : List LifetimeType :=
  [LifetimeType.TRANSIENT, LifetimeType.SCOPED, LifetimeType.SINGLETON]

/-- `testMatrix.cacheBypass` (line 23). -/
def testMatrix_cacheBypass : List Bool := [true, false]

/-- `secondsPerTest` (line 26). -/
def secondsPerTest : Nat := 3

/-- `testCases` (lines 29-39): four nested `map`s over the axes followed by
`.flat(4)`, which flattens the four levels of nesting into a flat list. -/
def testCases : List TestCase :=
  ((testMatrix_numberServices.map (fun numberServices =>
    testMatrix_maxInFlight.map (fun maxInFlight =>
      testMatrix_lifetimeType.map (fun lifetimeType =>
        testMatrix_cacheBypass.map (fun cacheBypass =>
          { numberServices := numberServices
            maxInFlight := maxInFlight
            lifetimeType := lifetimeType
            cacheBypass := cacheBypass
            numberSeconds := secondsPerTest : TestCase }))))).flatten).flatten.flatten

/-- The process-wide mutable counters (lines 42-44) that persist across
runs: `numberLogs` and `totalDiInitializations`.  (`mockLoggerIdCounter`
plays no role in any result field.) -/
structure Globals where
  numberLogs : Nat
  totalDiInitializations : Nat
deriving DecidableEq, Repr

/-- The mutable state of one `runTest` invocation (lines 75-84) together
with the process-wide counters it reads and writes.

`unresolvedPromises` is the insertion-ordered key list of the `Map` of the
same name; the pending completion handle stored under key `k` is
identified with `k`.  `pending` is the set of launched actions whose
`.then` continuation has not yet run (this is bookkeeping of the event
loop, not a variable of the program).  `singletonCache` is the set of
service indices cached in the root container (only ever populated under
SINGLETON), and `loggerCached` records whether the shared logger is in
that cache. -/
structure RunState where
  requestNumber : Nat
  resolvedResults : Nat
  resolveCacheHits : Nat
  maxInFlightHit : Bool
  numberLogs : Nat
  totalDiInitializations : Nat
  unresolvedPromises : List Nat
  pending : List Nat
  singletonCache : List Nat
  loggerCached : Bool
deriving DecidableEq, Repr

/-- Modelled from the spec: whether `targetContainer.cache.get(name)`
(line 98) finds an entry for service `svc`.  Per the resolver contract
(spec section 4.2): PER-CALL instances are never cached, so under
TRANSIENT the root cache stays empty; under SCOPED the target container
is a scope created fresh for this request (line 90), whose own PER-SCOPE
cache is empty at the peek; under SINGLETON the root cache holds exactly
the services resolved earlier in this run. -/
def peekHit (lt : LifetimeType) (cache : List Nat) (svc : Nat) : Bool :=
  match lt with
  | LifetimeType.SINGLETON => decide (svc ∈ cache)
  | LifetimeType.SCOPED => false
  | LifetimeType.TRANSIENT => false

/-- Modelled from the spec: the effect of `targetContainer.resolve(name)`
(lines 103/106) for service `svc` — the number of constructor runs (each
of which increments `totalDiInitializations`, lines 161/175/189) and the
updated root cache.  The registered factories (lines 198-233) are built
in PROXY injection mode, so each dependency access is itself a resolve:
the service constructor resolves `logger` and its repository, and the
repository constructor resolves `logger` again.
TRANSIENT: nothing is cached, so service + logger + repository + logger
again construct: 4. SCOPED: the fresh scope caches within the request,
so the second logger access hits the scope cache: 3; the scope is
dropped afterwards. SINGLETON: a cached service costs nothing; a new
one constructs the service and its repository (2) plus the shared logger
the first time only, all cached in the root container. -/
def resolveEffect (lt : LifetimeType) (cache : List Nat) (loggerCached : Bool)
    (svc : Nat) : Nat × List Nat × Bool :=
  match lt with
  | LifetimeType.TRANSIENT => (4, cache, loggerCached)
  | LifetimeType.SCOPED => (3, cache, loggerCached)
  | LifetimeType.SINGLETON =>
      if svc ∈ cache then (0, cache, loggerCached)
      else (2 + (if loggerCached then 0 else 1), svc :: cache, true)

/-- One execution of the `while` body (lines 86-128) choosing service
index `svc`:
increment `requestNumber` (line 88); peek the cache when `cacheBypass`
is set, counting a hit, otherwise resolve (lines 96-107); invoke
`mockAction(requestNumber)` — its synchronous part runs both `doLog`
calls, one in the service action and one in the repository action (lines
166-169 and 179-183) — and store the pending handle under the current
request number (line 117); finally, if the map size has reached
`maxInFlight`, set `maxInFlightHit` (lines 120-121).  The `await` of the
cap branch (lines 122-123) is applied to the iterator result object of
`unresolvedPromises.entries().next()`, which is not a thenable, so it
suspends without waiting on any pending action; the suspension itself
changes no state (interleaved completions appear as separate events). -/
def iterateStep (cfg : TestCase) (svc : Nat) (s : RunState) : RunState :=
  let requestNumber := s.requestNumber + 1
  let hit := cfg.cacheBypass && peekHit cfg.lifetimeType s.singletonCache svc
  let eff :=
    if hit then (0, s.singletonCache, s.loggerCached)
    else resolveEffect cfg.lifetimeType s.singletonCache s.loggerCached svc
  let unresolved := s.unresolvedPromises ++ [requestNumber]
  { requestNumber := requestNumber
    resolvedResults := s.resolvedResults
    resolveCacheHits := s.resolveCacheHits + (if hit then 1 else 0)
    maxInFlightHit := s.maxInFlightHit || decide (cfg.maxInFlight ≤ unresolved.length)
    numberLogs := s.numberLogs + 2
    totalDiInitializations := s.totalDiInitializations + eff.1
    unresolvedPromises := unresolved
    pending := s.pending ++ [requestNumber]
    singletonCache := eff.2.1
    loggerCached := eff.2.2 }

/-- The `.then` continuation for request `k` (lines 112-115): it runs at
most once, only for a launched action, increments `resolvedResults`, and
then evaluates `unresolvedPromises.delete[requestNumber]` — a property
read of the `delete` method, not a call — so the map keeps its entry. -/
def completeStep (k : Nat) (s : RunState) : RunState :=
  if k ∈ s.pending then
    { s with
      resolvedResults := s.resolvedResults + 1
      pending := s.pending.erase k }
  else s

/-- A scheduling event of one run: an iteration of the request loop or
the completion continuation of a launched action. -/
inductive Event where
  | iterate (svc : Nat)
  | complete (k : Nat)
deriving DecidableEq, Repr

/-- Apply one event to the run state. -/
def stepEvent (cfg : TestCase) (s : RunState) : Event → RunState
  | Event.iterate svc => iterateStep cfg svc s
  | Event.complete k => completeStep k s

/-- Run a trace of events from a state. -/
def runEvents (cfg : TestCase) (s : RunState) : List Event → RunState
  | [] => s
  | e :: es => runEvents cfg (stepEvent cfg s e) es

/-- The assignments of lines 83-84 at the start of `runTest`: both
process-wide counters are set to zero whatever they held before. -/
def resetGlobals (_g : Globals) : Globals :=
  { numberLogs := 0, totalDiInitializations := 0 }

/-- The state after the local initialisations of lines 75-84, entered
with the process-wide counters holding `g` from any earlier run. -/
def initState (g : Globals) : RunState :=
  { requestNumber := 0
    resolvedResults := 0
    resolveCacheHits := 0
    maxInFlightHit := false
    numberLogs := (resetGlobals g).numberLogs
    totalDiInitializations := (resetGlobals g).totalDiInitializations
    unresolvedPromises := []
    pending := []
    singletonCache := []
    loggerCached := false }

/-- The record returned by `runTest` (lines 133-142), without the two
wall-clock fields. -/
structure RunResult where
  maxInFlightHit : Bool
  requestNumber : Nat
  resolveCacheHits : Nat
  numberLogs : Nat
  resolvedResults : Nat
  totalDiInitializations : Nat
deriving DecidableEq, Repr

/-- Read the result record from the final state (lines 133-142). -/
def mkRunResult (s : RunState) : RunResult :=
  { maxInFlightHit := s.maxInFlightHit
    requestNumber := s.requestNumber
    resolveCacheHits := s.resolveCacheHits
    numberLogs := s.numberLogs
    resolvedResults := s.resolvedResults
    totalDiInitializations := s.totalDiInitializations }

/-- `runTest` (lines 65-143) for one configuration: reset the globals,
run the loop under the schedule `evs`, and report the counters. -/
def runTest (g : Globals) (cfg : TestCase) (evs : List Event) : RunResult :=
  mkRunResult (runEvents cfg (initState g) evs)

/-- A trace event is well formed for a configuration when every iteration
picks an index below `mockServiceNames.length` — which is what
`Math.floor(Math.random() * mockServiceNames.length)` (line 91) yields. -/
def eventOk (cfg : TestCase) : Event → Bool
  | Event.iterate svc => decide (svc < cfg.numberServices)
  | Event.complete _ => true

/-- The accumulated results list of `main` (lines 52-58): one
`[testCase, result]` pair per expanded test case, in issuance order;
line 61 serialises exactly this list.  `runOf` abstracts the result
delivered by `runTest` for each case. -/
def mainResults (runOf : TestCase → RunResult) : List (TestCase × RunResult) :=
  testCases.map (fun tc => (tc, runOf tc))

/-- The number of distinct services resolved during a run: the size of
the root cache at the end (SINGLETON inserts exactly the services whose
first resolve happened in this run, and never removes). -/
def distinctServicesResolved (g : Globals) (cfg : TestCase) (evs : List Event) : Nat :=
  (runEvents cfg (initState g) evs).singletonCache.length

/-- The two shapes of value relevant at the cap-check `await` (line 123):
the completion promise stored for request `k`, or an iterator result
object `\x7b value, done \x7d` as returned by `entries().next()`. -/
inductive JsValue where
  | promiseHandle (k : Nat)
  | iterResult (entry : Option (Nat × Nat))
deriving DecidableEq, Repr

/-- The value of `unresolvedPromises.entries().next()` (line 122): an
iterator result object whose `value` is the first-inserted `[key,
promise]` pair when the map is nonempty. -/
def oldestEntry (unresolved : List Nat) : JsValue :=
  JsValue.iterResult (unresolved.head?.map (fun k => (k, k)))

/-- What `await v` blocks on: awaiting a pending promise resumes only
after that request completes; awaiting an iterator result object — a
plain non-thenable — resumes after a microtask tick without waiting for
any pending action. -/
def awaitBlocksOn : JsValue → Option Nat
  | JsValue.promiseHandle k => some k
  | JsValue.iterResult _ => none

/-- Invariant maintained by a SINGLETON run over `numberServices = N`:
the construction counter equals twice the number of cached services plus
one for the shared logger once it exists; the logger is cached exactly
when some service has been resolved; and the cached service indices are
distinct and in range. -/
def singletonInv (N : Nat) (s : RunState) : Prop :=
  s.totalDiInitializations
      = 2 * s.singletonCache.length + (if s.loggerCached then 1 else 0)
    ∧ (s.loggerCached = true ↔ s.singletonCache ≠ [])
    ∧ s.singletonCache.Nodup
    ∧ ∀ x ∈ s.singletonCache, x < N

/-- A sample configuration with one service and an in-flight cap of one,
used to exercise the cap branch on concrete traces. -/
def cfgCapOne : TestCase :=
  { numberServices := 1
    maxInFlight := 1
    lifetimeType := LifetimeType.SINGLETON
    cacheBypass := false
    numberSeconds := 3 }

/-- A sample SINGLETON configuration with two services. -/
def cfgSingletonTwo : TestCase :=
  { numberServices := 2
    maxInFlight := 1000
    lifetimeType := LifetimeType.SINGLETON
    cacheBypass := false
    numberSeconds := 3 }

/-- A sample TRANSIENT configuration with one service. -/
def cfgTransientOne : TestCase :=
  { numberServices := 1
    maxInFlight := 1000
    lifetimeType := LifetimeType.TRANSIENT
    cacheBypass := false
    numberSeconds := 3 }

/-- A sample SCOPED configuration with the cache-bypass path enabled. -/
def cfgScopedBypass : TestCase :=
  { numberServices := 2
    maxInFlight := 1000
    lifetimeType := LifetimeType.SCOPED
    cacheBypass := true
    numberSeconds := 3 }

/-! ## Helper lemmas -/

theorem runEvents_cons (cfg : TestCase) (s : RunState) (e : Event) (es : List Event) :
    runEvents cfg s (e :: es) = runEvents cfg (stepEvent cfg s e) es := rfl

/-- Every event preserves `resolvedResults + pending.length = requestNumber`:
each iteration adds one issued request and one pending action, and each
continuation trades one pending action for one completion. -/
theorem resolved_add_pending_eq (cfg : TestCase) :
    ∀ (evs : List Event) (s : RunState),
      s.resolvedResults + s.pending.length = s.requestNumber →
      (runEvents cfg s evs).resolvedResults + (runEvents cfg s evs).pending.length
        = (runEvents cfg s evs).requestNumber := by
  intro evs
  induction evs with
  | nil => intro s h; exact h
  | cons e es ih =>
    intro s h
    rw [runEvents_cons]
    apply ih
    cases e with
    | iterate svc =>
      simp only [stepEvent, iterateStep, List.length_append, List.length_cons,
        List.length_nil]
      omega
    | complete k =>
      by_cases hk : k ∈ s.pending
      · have hlen := List.length_erase_of_mem hk
        have hpos : 0 < s.pending.length := List.length_pos_of_mem hk
        simp only [stepEvent, completeStep, if_pos hk, hlen]
        omega
      · simpa only [stepEvent, completeStep, if_neg hk] using h

/-- No event ever shortens the key list of `unresolvedPromises`: iterations
append a key and completions never remove one, so the length always equals
`requestNumber`. -/
theorem unresolved_length_eq (cfg : TestCase) :
    ∀ (evs : List Event) (s : RunState),
      s.unresolvedPromises.length = s.requestNumber →
      (runEvents cfg s evs).unresolvedPromises.length
        = (runEvents cfg s evs).requestNumber := by
  intro evs
  induction evs with
  | nil => intro s h; exact h
  | cons e es ih =>
    intro s h
    rw [runEvents_cons]
    apply ih
    cases e with
    | iterate svc =>
      simp only [stepEvent, iterateStep, List.length_append, List.length_cons,
        List.length_nil]
      omega
    | complete k =>
      by_cases hk : k ∈ s.pending
      · simpa only [stepEvent, completeStep, if_pos hk] using h
      · simpa only [stepEvent, completeStep, if_neg hk] using h

/-- Under a non-SINGLETON lifetime the peek of line 98 never hits, so the
cache-hit counter never moves. -/
theorem resolveCacheHits_const_of_no_peek (cfg : TestCase)
    (hlt : cfg.lifetimeType ≠ LifetimeType.SINGLETON) :
    ∀ (evs : List Event) (s : RunState),
      (runEvents cfg s evs).resolveCacheHits = s.resolveCacheHits := by
  intro evs
  induction evs with
  | nil => intro s; rfl
  | cons e es ih =>
    intro s
    rw [runEvents_cons, ih]
    cases e with
    | iterate svc =>
      cases h : cfg.lifetimeType with
      | SINGLETON => exact absurd h hlt
      | SCOPED => simp [stepEvent, iterateStep, peekHit, h]
      | TRANSIENT => simp [stepEvent, iterateStep, peekHit, h]
    | complete k =>
      by_cases hk : k ∈ s.pending <;> simp [stepEvent, completeStep, hk]

/-- Under TRANSIENT every iteration performs a full resolve costing four
constructions, so the construction counter is four times the request
counter. -/
theorem transient_di_eq (cfg : TestCase)
    (hlt : cfg.lifetimeType = LifetimeType.TRANSIENT) :
    ∀ (evs : List Event) (s : RunState),
      s.totalDiInitializations = 4 * s.requestNumber →
      (runEvents cfg s evs).totalDiInitializations
        = 4 * (runEvents cfg s evs).requestNumber := by
  intro evs
  induction evs with
  | nil => intro s h; exact h
  | cons e es ih =>
    intro s h
    rw [runEvents_cons]
    apply ih
    cases e with
    | iterate svc =>
      simp only [stepEvent, iterateStep, peekHit, resolveEffect, hlt,
        Bool.and_false, Bool.false_eq_true, if_false]
      omega
    | complete k =>
      by_cases hk : k ∈ s.pending
      · simpa only [stepEvent, completeStep, if_pos hk] using h
      · simpa only [stepEvent, completeStep, if_neg hk] using h

/-- The SINGLETON invariant is preserved by every well-formed trace. -/
theorem singletonInv_preserved (cfg : TestCase)
    (hlt : cfg.lifetimeType = LifetimeType.SINGLETON) :
    ∀ (evs : List Event), (∀ e ∈ evs, eventOk cfg e = true) →
      ∀ s : RunState, singletonInv cfg.numberServices s →
        singletonInv cfg.numberServices (runEvents cfg s evs) := by
  intro evs
  induction evs with
  | nil => intro _ s h; exact h
  | cons e es ih =>
    intro hok s h
    have hokTail : ∀ e2 ∈ es, eventOk cfg e2 = true :=
      fun e2 he2 => hok e2 (List.mem_cons_of_mem e he2)
    rw [runEvents_cons]
    apply ih hokTail
    obtain ⟨h1, h2, h3, h4⟩ := h
    cases e with
    | complete k =>
      by_cases hk : k ∈ s.pending <;>
        simpa [stepEvent, completeStep, hk, singletonInv] using ⟨h1, h2, h3, h4⟩
    | iterate svc =>
      have hsvc : svc < cfg.numberServices := by
        simpa [eventOk] using hok (Event.iterate svc) (List.mem_cons_self _ _)
      by_cases hmem : svc ∈ s.singletonCache
      · -- the service is cached: whether the peek hits or the resolve
        -- returns the cached instance, nothing is constructed or cached
        have hc : (stepEvent cfg s (Event.iterate svc)).singletonCache
            = s.singletonCache := by
          cases hb : cfg.cacheBypass && peekHit cfg.lifetimeType s.singletonCache svc <;>
            simp [stepEvent, iterateStep, hb, resolveEffect, hlt, hmem]
        have hl : (stepEvent cfg s (Event.iterate svc)).loggerCached
            = s.loggerCached := by
          cases hb : cfg.cacheBypass && peekHit cfg.lifetimeType s.singletonCache svc <;>
            simp [stepEvent, iterateStep, hb, resolveEffect, hlt, hmem]
        have hd : (stepEvent cfg s (Event.iterate svc)).totalDiInitializations
            = s.totalDiInitializations := by
          cases hb : cfg.cacheBypass && peekHit cfg.lifetimeType s.singletonCache svc <;>
            simp [stepEvent, iterateStep, hb, resolveEffect, hlt, hmem]
        exact ⟨by rw [hd, hc, hl]; exact h1, by rw [hl, hc]; exact h2,
          by rw [hc]; exact h3, by rw [hc]; exact h4⟩
      · -- first resolve of this service: the peek misses, the resolve
        -- constructs the service, its repository, and the logger if new
        have hAnd : (cfg.cacheBypass
            && peekHit cfg.lifetimeType s.singletonCache svc) = false := by
          simp [peekHit, hlt, hmem]
        have hc : (stepEvent cfg s (Event.iterate svc)).singletonCache
            = svc :: s.singletonCache := by
          simp [stepEvent, iterateStep, peekHit, resolveEffect, hlt, hmem]
        have hl : (stepEvent cfg s (Event.iterate svc)).loggerCached = true := by
          simp [stepEvent, iterateStep, peekHit, resolveEffect, hlt, hmem]
        have hd : (stepEvent cfg s (Event.iterate svc)).totalDiInitializations
            = s.totalDiInitializations + (2 + if s.loggerCached then 0 else 1) := by
          simp [stepEvent, iterateStep, peekHit, resolveEffect, hlt, hmem]
        refine ⟨?_, ?_, ?_, ?_⟩
        · rw [hd, hc, hl, List.length_cons]
          cases hlc : s.loggerCached <;> simp [hlc] at h1 ⊢ <;> omega
        · rw [hl, hc]; simp
        · rw [hc]; exact List.nodup_cons.mpr ⟨hmem, h3⟩
        · rw [hc]
          intro x hx
          rcases List.mem_cons.mp hx with hx | hx
          · exact hx ▸ hsvc
          · exact h4 x hx

/-- Characterisation of the expanded matrix: a configuration is a test
case exactly when every field lies on its axis and the duration is the
fixed per-test duration. -/
theorem mem_testCases (c : TestCase) :
    c ∈ testCases ↔
      (c.numberServices ∈ testMatrix_numberServices
        ∧ c.maxInFlight ∈ testMatrix_maxInFlight
        ∧ c.lifetimeType ∈ testMatrix_lifetimeType
        ∧ c.cacheBypass ∈ testMatrix_cacheBypass
        ∧ c.numberSeconds = secondsPerTest) := by
  constructor
  · intro h
    obtain ⟨A, hAY, hcA⟩ := List.mem_flatten.mp h
    obtain ⟨B, hBX, hAB⟩ := List.mem_flatten.mp hAY
    obtain ⟨C, hCT, hBC⟩ := List.mem_flatten.mp hBX
    obtain ⟨ns, hns, rfl⟩ := List.mem_map.mp hCT
    obtain ⟨mif, hmif, rfl⟩ := List.mem_map.mp hBC
    obtain ⟨lt, hlt, rfl⟩ := List.mem_map.mp hAB
    obtain ⟨cb, hcb, rfl⟩ := List.mem_map.mp hcA
    exact ⟨hns, hmif, hlt, hcb, rfl⟩
  · rintro ⟨hns, hmif, hlt, hcb, hsec⟩
    obtain ⟨ns, mif, lt, cb, sec⟩ := c
    simp only at hns hmif hlt hcb hsec
    subst hsec
    exact List.mem_flatten.mpr
      ⟨_, List.mem_flatten.mpr
        ⟨_, List.mem_flatten.mpr
          ⟨_, List.mem_map.mpr ⟨ns, hns, rfl⟩,
            List.mem_map.mpr ⟨mif, hmif, rfl⟩⟩,
          List.mem_map.mpr ⟨lt, hlt, rfl⟩⟩,
        List.mem_map.mpr ⟨cb, hcb, rfl⟩⟩

/-! ## Claim theorems -/

/-- C1: the claim says the backpressure branch awaits one pending entry
completion handle before the next iteration.  The code instead awaits the
iterator result object returned by `unresolvedPromises.entries().next()`
(lines 122-123), which is not a thenable, so the `await` blocks on no
completion at all: the loop can reach the next iteration with the cap hit
and zero completions recorded, as the concrete two-iteration run under
`maxInFlight = 1` shows. -/
theorem c1_cap_await_does_not_block :
    (∀ unresolved : List Nat, awaitBlocksOn (oldestEntry unresolved) = none)
    ∧ (∀ (cfg : TestCase) (svc : Nat) (s : RunState),
        (iterateStep cfg svc s).resolvedResults = s.resolvedResults
        ∧ (iterateStep cfg svc s).pending.length = s.pending.length + 1)
    ∧ (runEvents cfgCapOne (initState ⟨0, 0⟩) [Event.iterate 0]).maxInFlightHit = true
    ∧ (runEvents cfgCapOne (initState ⟨0, 0⟩)
        [Event.iterate 0, Event.iterate 0]).resolvedResults = 0
    ∧ (runEvents cfgCapOne (initState ⟨0, 0⟩)
        [Event.iterate 0, Event.iterate 0]).requestNumber = 2 :=
  ⟨fun _ => rfl,
   fun cfg svc s => by constructor <;> simp [iterateStep],
   by decide, by decide, by decide⟩

/-- C2: the claim says a completing request increments the completion
counter (which the code does) and removes its entry from the in-flight
map.  The code evaluates `unresolvedPromises.delete[requestNumber]`
(line 114) — a property read of the `delete` method, not a call — so no
entry is ever removed: after request 1 completes, the counter reads 1
but key 1 is still in the map. -/
theorem c2_completion_leaves_entry :
    (∀ (k : Nat) (s : RunState),
        (completeStep k s).unresolvedPromises = s.unresolvedPromises)
    ∧ (∀ (k : Nat) (s : RunState),
        (completeStep k s).resolvedResults
          = s.resolvedResults + (if k ∈ s.pending then 1 else 0))
    ∧ (runEvents cfgCapOne (initState ⟨0, 0⟩)
        [Event.iterate 0, Event.complete 1]).resolvedResults = 1
    ∧ 1 ∈ (runEvents cfgCapOne (initState ⟨0, 0⟩)
        [Event.iterate 0, Event.complete 1]).unresolvedPromises := by
  refine ⟨fun k s => ?_, fun k s => ?_, by decide, by decide⟩
  · unfold completeStep
    split <;> rfl
  · unfold completeStep
    split <;> simp_all

/-- C3: the claim says the in-flight set size observed at the start of
each iteration after the cap is hit never exceeds `maxInFlight`.  Because
entries are never deleted (line 114) and the cap branch does not block
(lines 122-123), the key count of `unresolvedPromises` always equals the
number of issued requests on every schedule; with `maxInFlight = 1` the
cap is hit on the first iteration, yet at the start of the third
iteration the size is already 2 > 1. -/
theorem c3_inflight_size_equals_requests :
    (∀ (cfg : TestCase) (g : Globals) (evs : List Event),
        (runEvents cfg (initState g) evs).unresolvedPromises.length
          = (runEvents cfg (initState g) evs).requestNumber)
    ∧ (runEvents cfgCapOne (initState ⟨0, 0⟩) [Event.iterate 0]).maxInFlightHit = true
    ∧ cfgCapOne.maxInFlight
        < (runEvents cfgCapOne (initState ⟨0, 0⟩)
            [Event.iterate 0, Event.iterate 0]).unresolvedPromises.length :=
  ⟨fun cfg g evs => unresolved_length_eq cfg evs (initState g) rfl,
   by decide, by decide⟩

/-- C7: per iteration, when `cacheBypass` holds and the peek of line 98
hits, the cache-hit counter is incremented and no resolve happens (no
constructions, cache untouched); on a miss, or when `cacheBypass` is
off, a full resolve runs (lines 96-107). -/
theorem c7_cache_bypass_resolution (cfg : TestCase) (svc : Nat) (s : RunState) :
    (iterateStep cfg svc s).resolveCacheHits
        = s.resolveCacheHits
          + (if cfg.cacheBypass && peekHit cfg.lifetimeType s.singletonCache svc
             then 1 else 0)
    ∧ (iterateStep cfg svc s).totalDiInitializations
        = s.totalDiInitializations
          + (if cfg.cacheBypass && peekHit cfg.lifetimeType s.singletonCache svc
             then 0
             else (resolveEffect cfg.lifetimeType s.singletonCache s.loggerCached svc).1)
    ∧ (iterateStep cfg svc s).singletonCache
        = (if cfg.cacheBypass && peekHit cfg.lifetimeType s.singletonCache svc
           then s.singletonCache
           else (resolveEffect cfg.lifetimeType s.singletonCache s.loggerCached svc).2.1) := by
  cases hb : cfg.cacheBypass && peekHit cfg.lifetimeType s.singletonCache svc <;>
    refine ⟨?_, ?_, ?_⟩ <;> simp [iterateStep, hb]

/-- C8: the assignments of lines 83-84 zero both process-wide counters
before the loop starts, so the run result is independent of whatever the
counters held after the previous run, and the result fields are read
from the counters of the final state (lines 133-142). -/
theorem c8_counters_reset_per_run (g gPrev : Globals) (cfg : TestCase)
    (evs : List Event) :
    runTest g cfg evs = runTest gPrev cfg evs
    ∧ (initState g).numberLogs = 0
    ∧ (initState g).totalDiInitializations = 0
    ∧ (initState g).requestNumber = 0
    ∧ (runTest g cfg evs).numberLogs
        = (runEvents cfg (initState g) evs).numberLogs
    ∧ (runTest g cfg evs).totalDiInitializations
        = (runEvents cfg (initState g) evs).totalDiInitializations :=
  ⟨rfl, rfl, rfl, rfl, rfl, rfl⟩

/-- C10: on every schedule the completion counter never exceeds the
request counter, both at every point of the run (any trace is a point)
and in the returned result: each completion consumes a pending action
launched by an already-counted request. -/
theorem c10_completions_le_requests (g : Globals) (cfg : TestCase)
    (evs : List Event) :
    (runEvents cfg (initState g) evs).resolvedResults
        ≤ (runEvents cfg (initState g) evs).requestNumber
    ∧ (runTest g cfg evs).resolvedResults ≤ (runTest g cfg evs).requestNumber := by
  have h := resolved_add_pending_eq cfg evs (initState g) rfl
  refine ⟨by omega, ?_⟩
  simp only [runTest, mkRunResult]
  omega

/-- C4 counterexample: under SINGLETON with two services, a run that
issues a single request resolving service 0 ends with a construction
counter of 3, not `2 * serviceCount + 1 = 5`: the counter is not
independent of which services the random picks reach. -/
theorem c4_counterexample :
    (runTest ⟨0, 0⟩ cfgSingletonTwo [Event.iterate 0]).totalDiInitializations
      ≠ 2 * cfgSingletonTwo.numberServices + 1 := by decide

/-- C4 amended: under PROCESS-WIDE (SINGLETON), for every schedule whose
service picks are in range, the construction counter at run end equals
`2 * d + 1` where `d ≥ 1` is the number of distinct services actually
resolved (plus nothing when no request resolved anything); it is bounded
by `2 * serviceCount + 1` and reaches that value only when every service
was resolved at least once. -/
theorem c4_singleton_construction_count (g : Globals) (cfg : TestCase)
    (evs : List Event) (hlt : cfg.lifetimeType = LifetimeType.SINGLETON)
    (hok : ∀ e ∈ evs, eventOk cfg e = true) :
    (runTest g cfg evs).totalDiInitializations
        = 2 * distinctServicesResolved g cfg evs
          + (if distinctServicesResolved g cfg evs = 0 then 0 else 1)
    ∧ distinctServicesResolved g cfg evs ≤ cfg.numberServices
    ∧ (runTest g cfg evs).totalDiInitializations
        ≤ 2 * cfg.numberServices + 1 := by
  have hinit : singletonInv cfg.numberServices (initState g) := by
    refine ⟨rfl, by simp [initState], List.nodup_nil, ?_⟩
    intro x hx
    simp [initState] at hx
  have hinv := singletonInv_preserved cfg hlt evs hok (initState g) hinit
  obtain ⟨h1, h2, h3, h4⟩ := hinv
  simp only [runTest, mkRunResult, distinctServicesResolved]
  have hcard : (runEvents cfg (initState g) evs).singletonCache.length
      ≤ cfg.numberServices := by
    have hnd := List.toFinset_card_of_nodup h3
    have hsub : (runEvents cfg (initState g) evs).singletonCache.toFinset
        ⊆ Finset.range cfg.numberServices := by
      intro x hx
      rw [List.mem_toFinset] at hx
      exact Finset.mem_range.mpr (h4 x hx)
    have hle := Finset.card_le_card hsub
    rw [Finset.card_range] at hle
    omega
  refine ⟨?_, hcard, ?_⟩
  · cases hlc : (runEvents cfg (initState g) evs).loggerCached
    · have hce : (runEvents cfg (initState g) evs).singletonCache = [] := by
        by_contra hne
        rw [h2.mpr hne] at hlc
        cases hlc
      rw [hlc] at h1
      rw [hce] at h1
      simp only [hce, List.length_nil]
      simpa using h1
    · have hne := h2.mp hlc
      have hlen : (runEvents cfg (initState g) evs).singletonCache.length ≠ 0 :=
        fun h0 => hne (List.length_eq_zero.mp h0)
      rw [hlc] at h1
      rw [if_neg hlen]
      simpa using h1
  · rw [h1]
    have hone : (if (runEvents cfg (initState g) evs).loggerCached then 1 else 0)
        ≤ 1 := by split <;> omega
    omega

/-- C4 witness: a concrete SINGLETON run over two services that resolves
both of them (one twice) satisfies the amended count `2 * 2 + 1 = 5`. -/
theorem c4_singleton_construction_count_witness :
    cfgSingletonTwo.lifetimeType = LifetimeType.SINGLETON
    ∧ (∀ e ∈ ([Event.iterate 0, Event.iterate 0, Event.iterate 1] : List Event),
        eventOk cfgSingletonTwo e = true)
    ∧ ((runTest ⟨3, 9⟩ cfgSingletonTwo
          [Event.iterate 0, Event.iterate 0, Event.iterate 1]).totalDiInitializations
        = 2 * distinctServicesResolved ⟨3, 9⟩ cfgSingletonTwo
              [Event.iterate 0, Event.iterate 0, Event.iterate 1]
          + (if distinctServicesResolved ⟨3, 9⟩ cfgSingletonTwo
                [Event.iterate 0, Event.iterate 0, Event.iterate 1] = 0
             then 0 else 1)
      ∧ distinctServicesResolved ⟨3, 9⟩ cfgSingletonTwo
            [Event.iterate 0, Event.iterate 0, Event.iterate 1]
          ≤ cfgSingletonTwo.numberServices
      ∧ (runTest ⟨3, 9⟩ cfgSingletonTwo
          [Event.iterate 0, Event.iterate 0, Event.iterate 1]).totalDiInitializations
          ≤ 2 * cfgSingletonTwo.numberServices + 1) :=
  ⟨rfl, by decide,
   c4_singleton_construction_count ⟨3, 9⟩ cfgSingletonTwo _ rfl (by decide)⟩

/-- C5 counterexample: under PER-CALL (TRANSIENT) a single request
constructs 4 entities — the service, its repository, and the logger
twice, once inside each constructor — so the counter already exceeds the
claimed bound `requestsIssued * (2 + 1)` after one request. -/
theorem c5_counterexample :
    ¬ ((runTest ⟨0, 0⟩ cfgTransientOne [Event.iterate 0]).totalDiInitializations
        ≤ (runTest ⟨0, 0⟩ cfgTransientOne
            [Event.iterate 0]).requestNumber * (2 + 1)) := by decide

/-- C5 amended: under PER-CALL (TRANSIENT) the construction counter
strictly increases with each request — every iteration adds exactly 4:
a fresh service and repository pair plus two logger constructions, one
per constructor, since PER-CALL instances are never reused even inside
one resolution — and the final value equals `4 * requestsIssued`. -/
theorem c5_transient_construction_count (g : Globals) (cfg : TestCase)
    (evs : List Event) (hlt : cfg.lifetimeType = LifetimeType.TRANSIENT) :
    (runTest g cfg evs).totalDiInitializations
        = 4 * (runTest g cfg evs).requestNumber
    ∧ ∀ (svc : Nat) (s : RunState),
        (iterateStep cfg svc s).totalDiInitializations
          = s.totalDiInitializations + 4 := by
  constructor
  · simpa only [runTest, mkRunResult]
      using transient_di_eq cfg hlt evs (initState g) rfl
  · intro svc s
    simp [iterateStep, peekHit, resolveEffect, hlt]

/-- C5 witness: a concrete TRANSIENT run with two requests ends with a
construction counter of `4 * 2 = 8`, and each iteration adds 4. -/
theorem c5_transient_construction_count_witness :
    cfgTransientOne.lifetimeType = LifetimeType.TRANSIENT
    ∧ ((runTest ⟨2, 7⟩ cfgTransientOne
          [Event.iterate 0, Event.iterate 0]).totalDiInitializations
        = 4 * (runTest ⟨2, 7⟩ cfgTransientOne
            [Event.iterate 0, Event.iterate 0]).requestNumber
      ∧ ∀ (svc : Nat) (s : RunState),
          (iterateStep cfgTransientOne svc s).totalDiInitializations
            = s.totalDiInitializations + 4) :=
  ⟨rfl, c5_transient_construction_count ⟨2, 7⟩ cfgTransientOne _ rfl⟩

/-- C6: the expanded matrix is the full cartesian product of the axes —
its length is the product of the axis sizes, it has no duplicates, a
configuration belongs to it exactly when each field lies on its axis
with the fixed duration, and the accumulated result list of `main`
pairs the test cases in issuance order. -/
theorem c6_matrix_expansion :
    testCases.length
        = testMatrix_numberServices.length * testMatrix_maxInFlight.length
          * testMatrix_lifetimeType.length * testMatrix_cacheBypass.length
    ∧ testCases.Nodup
    ∧ (∀ c : TestCase,
        c ∈ testCases ↔
          (c.numberServices ∈ testMatrix_numberServices
            ∧ c.maxInFlight ∈ testMatrix_maxInFlight
            ∧ c.lifetimeType ∈ testMatrix_lifetimeType
            ∧ c.cacheBypass ∈ testMatrix_cacheBypass
            ∧ c.numberSeconds = secondsPerTest))
    ∧ ∀ runOf : TestCase → RunResult,
        (mainResults runOf).length = testCases.length
        ∧ (mainResults runOf).map Prod.fst = testCases := by
  refine ⟨by decide, by decide, mem_testCases, fun runOf => ⟨?_, ?_⟩⟩
  · simp [mainResults]
  · have hmap : ∀ l : List TestCase,
        (l.map (fun tc => (tc, runOf tc))).map Prod.fst = l := by
      intro l
      induction l with
      | nil => rfl
      | cons a t ih => simp [ih]
    simpa [mainResults] using hmap testCases

/-- C9: under PER-SCOPE (SCOPED) with the cache-bypass path on, the
cache-hit counter of the result is always zero on every schedule: the
peek of line 98 runs against the per-request fresh scope, whose own
PER-SCOPE cache is empty. -/
theorem c9_scoped_bypass_no_hits (g : Globals) (cfg : TestCase)
    (evs : List Event) (hlt : cfg.lifetimeType = LifetimeType.SCOPED)
    (_hcb : cfg.cacheBypass = true) :
    (runTest g cfg evs).resolveCacheHits = 0 := by
  have hne : cfg.lifetimeType ≠ LifetimeType.SINGLETON := by simp [hlt]
  exact resolveCacheHits_const_of_no_peek cfg hne evs (initState g)

/-- C9 witness: a concrete SCOPED run with the bypass on, two requests
and one completion records zero cache hits. -/
theorem c9_scoped_bypass_no_hits_witness :
    cfgScopedBypass.lifetimeType = LifetimeType.SCOPED
    ∧ cfgScopedBypass.cacheBypass = true
    ∧ (runTest ⟨4, 6⟩ cfgScopedBypass
        [Event.iterate 0, Event.iterate 1, Event.complete 1]).resolveCacheHits = 0 :=
  ⟨rfl, rfl, c9_scoped_bypass_no_hits ⟨4, 6⟩ cfgScopedBypass _ rfl rfl⟩

end Benchmark
